import Mathlib

/-!
Verification development for the DevDraft voice-to-spec pipeline.

The definitions below are a shallow embedding of the repository's
prompt-generation utilities (promptGenerator), of the side-panel session
state handling (the WebSocket message handlers, startCapture and
stopCapture), and of the requirements-reconciliation engine described in
the design document.  Theorems about the claims follow the definitions.
-/

namespace DevDraft

/-- Status of a requirement, from the Requirement interface of the prompt
generator: either active or superseded. -/
inductive ReqStatus
  | active
  | superseded
deriving DecidableEq

/-- A single project requirement, mirroring the Requirement interface:
an integer id, a free-text description, a status, and an optional
reference to the id of the requirement this one replaces. -/
structure Requirement where
  id : Nat
  description : String
  status : ReqStatus
  supersedes : Option Nat
deriving DecidableEq

/-- The committed project specification, mirroring the ProjectSpec
interface.  In the source, ui_preferences and raw_transcript_snapshot are
optional fields, embedded here as Option. -/
structure ProjectSpec where
  project_summary : String
  requirements : List Requirement
  tech_stack : List String
  ui_preferences : Option (List String)
  raw_transcript_snapshot : Option String
deriving DecidableEq

/-- The four agentic coding tools offered by the export UI. -/
inductive AgenticTool
  | lovable
  | bolt
  | replit
  | v0
deriving DecidableEq

/-- Mirrors the TOOL_URLS record of the prompt generator. -/
def TOOL_URLS : AgenticTool → String
  | .lovable => "https://lovable.dev"
  | .bolt => "https://bolt.new"
  | .replit => "https://replit.com/agent"
  | .v0 => "https://v0.dev"

/-- Mirrors the TOOL_NAMES record of the prompt generator. -/
def TOOL_NAMES : AgenticTool → String
  | .lovable => "Lovable"
  | .bolt => "Bolt.new"
  | .replit => "Replit Agent"
  | .v0 => "v0 by Vercel"

/-- The ternary inside the Tech Stack template slot of generateSuperPrompt:
the technologies joined by a comma and a space when the list is non-empty,
a fixed fallback sentence otherwise. -/
def techStackText (spec : ProjectSpec) : String :=
  if spec.tech_stack.length > 0 then String.intercalate ", " spec.tech_stack
  else "Use modern best practices - suggest appropriate technologies"

/-- The list of lines placed under the Requirements heading by
generateSuperPrompt: one entry per requirement whose status is active, in
list order, each entry being a dash, a space and the description. -/
def requirementsSectionEntries (spec : ProjectSpec) : List String :=
  (spec.requirements.filter (fun r => r.status == ReqStatus.active)).map
    (fun r => "- " ++ r.description)

/-- The text of the Requirements section body in generateSuperPrompt. -/
def requirementsText (spec : ProjectSpec) : String :=
  String.intercalate "\n" (requirementsSectionEntries spec)

/-- The optional UI/UX Preferences block appended by generateSuperPrompt
when ui_preferences is present and non-empty. -/
def uiPreferencesText (spec : ProjectSpec) : String :=
  match spec.ui_preferences with
  | some prefs =>
      if prefs.length > 0 then
        "\n## UI/UX Preferences\n" ++
          String.intercalate "\n" (prefs.map (fun p => "- " ++ p)) ++ "\n"
      else ""
  | none => ""

/-- The Raw Transcript Reference block, shared verbatim by
generateSuperPrompt and generateDetailedPrompt (they differ only in the
newlines placed in front of it). -/
def rawTranscriptSection (t : String) : String :=
  "## Raw Transcript Reference\n<details>\n<summary>Full conversation transcript</summary>\n\n"
    ++ t ++ "\n\n</details>"

/-- The conditional transcript tail of generateSuperPrompt: present when
raw_transcript_snapshot is set and non-empty (the truthiness test of the
source), preceded by two newlines. -/
def rawTranscriptTailSuper (spec : ProjectSpec) : String :=
  match spec.raw_transcript_snapshot with
  | some t => if t ≠ "" then "\n\n" ++ rawTranscriptSection t else ""
  | none => ""

/-- The conditional transcript tail appended by generateDetailedPrompt
itself, preceded by a single newline. -/
def rawTranscriptTailDetailed (spec : ProjectSpec) : String :=
  match spec.raw_transcript_snapshot with
  | some t => if t ≠ "" then "\n" ++ rawTranscriptSection t else ""
  | none => ""

/-- The prompt accumulated by generateSuperPrompt before the transcript
tail: the main template, the optional UI/UX Preferences block and the
closing instruction sentence. -/
def superPromptCore (spec : ProjectSpec) : String :=
  "Build a web application with the following specifications:\n\n## Project Summary\n"
    ++ spec.project_summary
    ++ "\n\n"
    ++ "## Tech Stack\n"
    ++ techStackText spec
    ++ "\n\n"
    ++ "## Requirements\n"
    ++ requirementsText spec
    ++ "\n"
    ++ uiPreferencesText spec
    ++ "\nPlease start by scaffolding the main components and implementing the core features."

/-- Embedding of generateSuperPrompt from the prompt generator. -/
def generateSuperPrompt (spec : ProjectSpec) : String :=
  superPromptCore spec ++ rawTranscriptTailSuper spec

/-- The Historical Context block of generateDetailedPrompt, listing
struck-through descriptions of the superseded requirements when there are
any. -/
def historicalContextText (spec : ProjectSpec) : String :=
  let supersededRequirements :=
    spec.requirements.filter (fun r => r.status == ReqStatus.superseded)
  if supersededRequirements.length > 0 then
    "\n\n## Historical Context (Changed Requirements)\nThe following requirements were initially discussed but later changed:\n"
      ++ String.intercalate "\n"
          (supersededRequirements.map (fun r => "- ~~" ++ r.description ++ "~~"))
      ++ "\n"
  else ""

/-- Embedding of generateDetailedPrompt: the super prompt, then the
historical-context block, then the transcript tail appended again. -/
def generateDetailedPrompt (spec : ProjectSpec) : String :=
  (generateSuperPrompt spec ++ historicalContextText spec)
    ++ rawTranscriptTailDetailed spec

/-- Result value of copyToClipboardAndRedirect. -/
structure CopyResult where
  success : Bool
  message : String
deriving DecidableEq

/-- The try-block of copyToClipboardAndRedirect.  The clipboard write is
the only fallible step; its outcome is passed in as a flag, and a failing
write is a thrown error. -/
def copyBody (clipboardFails : Bool) (tool : AgenticTool) : Except String CopyResult :=
  if clipboardFails then Except.error "clipboard write rejected"
  else Except.ok
    { success := true
      message := "Prompt copied! Opening " ++ TOOL_NAMES tool ++ "..." }

/-- Embedding of copyToClipboardAndRedirect: the try-block result when the
clipboard write succeeds, the fixed failure record from the catch-block
when it throws.  The function is total: every outcome is a CopyResult. -/
def copyToClipboardAndRedirect (clipboardFails : Bool) (_prompt : String)
    (tool : AgenticTool) : CopyResult :=
  match copyBody clipboardFails tool with
  | Except.ok r => r
  | Except.error _ =>
      { success := false
        message := "Failed to copy to clipboard. Please try again." }

/-- Connection status of the side panel. -/
inductive ConnStatus
  | disconnected
  | connected
  | error
  | recording
deriving DecidableEq

/-- The side-panel component state relevant to the session claims: the
React useState cells of the SidePanel component. -/
structure AppState where
  status : ConnStatus
  stream : Bool
  recording : Bool
  transcript : String
  fullTranscript : String
  wordCountProgress : Nat
  projectSpec : Option ProjectSpec
  buildStatus : String
deriving DecidableEq

/-- The initial component state: every useState initialiser. -/
def initialAppState : AppState :=
  { status := ConnStatus.disconnected
    stream := false
    recording := false
    transcript := ""
    fullTranscript := ""
    wordCountProgress := 0
    projectSpec := none
    buildStatus := "" }

/-- Inbound WebSocket messages dispatched by the onmessage handler. -/
inductive WireMsg
  | transcript (data : String)
  | wordCount (count : Nat)
  | projectSpec (data : ProjectSpec)

/-- Embedding of the ws.onmessage handler of the side panel: a transcript
chunk is appended (with a space) to both the display transcript, kept to
its last 300 characters, and the full transcript; a word_count message
overwrites the progress counter; a project_spec message stores the new
committed specification and resets the progress counter to zero. -/
def handleWsMessage (st : AppState) (m : WireMsg) : AppState :=
  match m with
  | .transcript d =>
      { st with
        transcript := (st.transcript ++ " " ++ d).takeRight 300
        fullTranscript := st.fullTranscript ++ " " ++ d }
  | .wordCount c => { st with wordCountProgress := c }
  | .projectSpec sp =>
      { st with projectSpec := some sp, wordCountProgress := 0 }

/-- The state updates performed by startCapture when a new session begins
(after the media stream and socket are acquired): the stream is stored,
the transcripts, the progress counter, the committed specification and
the build status are all reset, and recording starts. -/
def startCaptureReset (st : AppState) : AppState :=
  { st with
    status := ConnStatus.recording
    stream := true
    recording := true
    transcript := ""
    fullTranscript := ""
    wordCountProgress := 0
    projectSpec := none
    buildStatus := "" }

/-- Embedding of stopCapture: the recorder and the captured stream are
stopped and the status returns to disconnected.  No other field is
written. -/
def stopCapture (st : AppState) : AppState :=
  { st with
    status := ConnStatus.disconnected
    stream := false
    recording := false }

/-- Dispatch a list of inbound messages through the onmessage handler. -/
def runMsgs (st : AppState) (ms : List WireMsg) : AppState :=
  ms.foldl handleWsMessage st

/-- The transcript chunks carried by a list of inbound messages, in
arrival order. -/
def chunksOf (ms : List WireMsg) : List String :=
  ms.filterMap (fun m =>
    match m with
    | .transcript d => some d
    | _ => none)

/-- Concatenation of a list of chunks in which every chunk is preceded by
a single space. -/
def joinChunks : List String → String
  | [] => ""
  | c :: cs => " " ++ c ++ joinChunks cs

/-- Modelled from the spec: the candidate requirement emitted by the
Specification Extractor, which is not part of this repository snapshot
(only the design document describes the backend engine).  A candidate
requirement is a plain description string with an optional opaque
supersession token, matched by description similarity against the prior
active requirements. -/
structure CandidateRequirement where
  description : String
  supersedes_hint : Option String
deriving DecidableEq

/-- Modelled from the spec: the CandidateSpecification produced by the
Specification Extractor — structurally a ProjectSpecification with no
identifiers assigned yet. -/
structure CandidateSpec where
  project_summary : String
  requirements : List CandidateRequirement
  tech_stack : List String
  ui_preferences : List String
deriving DecidableEq

/-- Modelled from the spec: the case-insensitive, whitespace-normalised
form of a description used by the Reconciliation Engine for textual
matching. -/
def normalize (s : String) : String :=
  String.intercalate " " ((s.toLower.splitOn " ").filter (fun w => w ≠ ""))

/-- Modelled from the spec: case-insensitive membership used when the
engine unions tech_stack and ui_preferences entries. -/
def containsCI (l : List String) (x : String) : Bool :=
  l.any (fun y => y.toLower == x.toLower)

/-- Modelled from the spec: union of candidate entries into a committed
collection, deduplicating case-insensitively and preserving first-seen
order. -/
def unionCI (committed candidate : List String) : List String :=
  candidate.foldl (fun acc x => if containsCI acc x then acc else acc ++ [x]) committed

/-- The requirements whose status is active. -/
def activeReqs (reqs : List Requirement) : List Requirement :=
  reqs.filter (fun r => r.status == ReqStatus.active)

/-- Modelled from the spec: resolution of a supersession token to a prior
active requirement by normalised description match; when several active
requirements match equally, the most recently created one (highest id)
wins. -/
def resolveHint (reqs : List Requirement) (hint : String) : Option Requirement :=
  (activeReqs reqs).foldl
    (fun best r =>
      if normalize r.description == normalize hint then
        match best with
        | none => some r
        | some b => if b.id < r.id then some r else some b
      else best)
    none

/-- Modelled from the spec: processing of one candidate requirement by the
Reconciliation Engine.  A resolved supersession token marks the referenced
active requirement superseded and appends a fresh requirement carrying the
next id and a supersedes link; otherwise a candidate whose normalised
description matches an already-active requirement is a no-op; otherwise a
brand-new requirement is appended with the next id. -/
def reconcileReq (st : List Requirement × Nat) (c : CandidateRequirement) :
    List Requirement × Nat :=
  match c.supersedes_hint.bind (fun h => resolveHint st.1 h) with
  | some old =>
      (st.1.map (fun r =>
          if r.id == old.id then { r with status := ReqStatus.superseded } else r)
        ++ [{ id := st.2, description := c.description,
              status := ReqStatus.active, supersedes := some old.id }],
       st.2 + 1)
  | none =>
      if (activeReqs st.1).any
          (fun r => normalize r.description == normalize c.description) then st
      else
        (st.1 ++ [{ id := st.2, description := c.description,
                    status := ReqStatus.active, supersedes := none }],
         st.2 + 1)

/-- Modelled from the spec: one full run of the Reconciliation Engine.
The summary is replaced wholesale, tech_stack and ui_preferences are
unioned case-insensitively, and the candidate requirements are folded in
emission order through reconcileReq, threading the id counter. -/
def reconcile (s : ProjectSpec) (n : Nat) (cand : CandidateSpec) :
    ProjectSpec × Nat :=
  let folded := cand.requirements.foldl reconcileReq (s.requirements, n)
  ({ project_summary := cand.project_summary
     requirements := folded.1
     tech_stack := unionCI s.tech_stack cand.tech_stack
     ui_preferences := some (unionCI (s.ui_preferences.getD []) cand.ui_preferences)
     raw_transcript_snapshot := s.raw_transcript_snapshot },
   folded.2)

/-- A candidate identical in content to a committed specification: the
summary, tech stack and preferences are carried over and the candidate
requirements are the descriptions of the committed active requirements,
with no supersession tokens. -/
def candidateOf (s : ProjectSpec) : CandidateSpec :=
  { project_summary := s.project_summary
    requirements :=
      (activeReqs s.requirements).map
        (fun r => { description := r.description, supersedes_hint := none })
    tech_stack := s.tech_stack
    ui_preferences := s.ui_preferences.getD [] }

/-- The empty committed specification a session starts from. -/
def initialSpec : ProjectSpec :=
  { project_summary := ""
    requirements := []
    tech_stack := []
    ui_preferences := some []
    raw_transcript_snapshot := none }

/-- One reconciliation applied to a session state (specification and next
id counter). -/
def reconcileStep (st : ProjectSpec × Nat) (c : CandidateSpec) : ProjectSpec × Nat :=
  reconcile st.1 st.2 c

/-- A whole session: a sequence of reconciliations from the empty
specification with the id counter starting at one. -/
def runReconciliations (cs : List CandidateSpec) : ProjectSpec × Nat :=
  cs.foldl reconcileStep (initialSpec, 1)

/-- Every id in the list is below the bound (the next counter value). -/
def IdsBelow (reqs : List Requirement) (n : Nat) : Prop :=
  ∀ i ∈ reqs.map (fun r => r.id), i < n

/-- A concrete specification used to instantiate the theorems. -/
def sampleSpec : ProjectSpec :=
  { project_summary := "A dashboard for crypto tracking"
    requirements :=
      [ { id := 1, description := "Dark mode UI", status := ReqStatus.active,
          supersedes := none },
        { id := 2, description := "Use navbar navigation",
          status := ReqStatus.superseded, supersedes := none },
        { id := 3, description := "Use sidebar navigation",
          status := ReqStatus.active, supersedes := some 2 } ]
    tech_stack := ["React", "Tailwind"]
    ui_preferences := some ["Dark theme"]
    raw_transcript_snapshot := some "hello world" }

/-- A specification in which a superseded requirement and a later active
requirement carry the same description: the client changed their mind and
then changed it back, so the engine re-created the description under a
fresh id. -/
def cexSpec : ProjectSpec :=
  { project_summary := "An app"
    requirements :=
      [ { id := 1, description := "Dark mode", status := ReqStatus.superseded,
          supersedes := none },
        { id := 2, description := "Light mode", status := ReqStatus.active,
          supersedes := some 1 },
        { id := 3, description := "Dark mode", status := ReqStatus.active,
          supersedes := none } ]
    tech_stack := []
    ui_preferences := none
    raw_transcript_snapshot := none }

end DevDraft

namespace DevDraft

/-- Claim C10: copyToClipboardAndRedirect never throws; a successful
clipboard write resolves to success with a message naming the chosen
tool, and a failing (throwing) write resolves to failure with the fixed
message. -/
theorem copy_to_clipboard_total (p : String) (t : AgenticTool) :
    (copyToClipboardAndRedirect false p t).success = true ∧
    (copyToClipboardAndRedirect false p t).message =
      "Prompt copied! Opening " ++ TOOL_NAMES t ++ "..." ∧
    copyToClipboardAndRedirect true p t =
      { success := false
        message := "Failed to copy to clipboard. Please try again." } :=
  ⟨rfl, rfl, rfl⟩

/-- Claim C8: handling a project_spec message stores the newly committed
specification and resets the word-count progress counter to zero. -/
theorem project_spec_msg_resets_word_count (st : AppState) (sp : ProjectSpec) :
    (handleWsMessage st (WireMsg.projectSpec sp)).wordCountProgress = 0 ∧
    (handleWsMessage st (WireMsg.projectSpec sp)).projectSpec = some sp :=
  ⟨rfl, rfl⟩

/-- Claim C4: generateSuperPrompt and generateDetailedPrompt depend only
on their ProjectSpec argument: two specifications agreeing on every field
produce equal prompt strings. -/
theorem prompt_generators_deterministic (s1 s2 : ProjectSpec)
    (h1 : s1.project_summary = s2.project_summary)
    (h2 : s1.requirements = s2.requirements)
    (h3 : s1.tech_stack = s2.tech_stack)
    (h4 : s1.ui_preferences = s2.ui_preferences)
    (h5 : s1.raw_transcript_snapshot = s2.raw_transcript_snapshot) :
    generateSuperPrompt s1 = generateSuperPrompt s2 ∧
    generateDetailedPrompt s1 = generateDetailedPrompt s2 := by
  have h : s1 = s2 := by
    calc s1 = ⟨s1.project_summary, s1.requirements, s1.tech_stack,
                s1.ui_preferences, s1.raw_transcript_snapshot⟩ := rfl
    _ = ⟨s2.project_summary, s2.requirements, s2.tech_stack,
          s2.ui_preferences, s2.raw_transcript_snapshot⟩ := by
        rw [h1, h2, h3, h4, h5]
    _ = s2 := rfl
  rw [h]
  exact ⟨rfl, rfl⟩

/-- Witness for claim C4 at a concrete specification. -/
theorem prompt_generators_deterministic_witness :
    generateSuperPrompt sampleSpec = generateSuperPrompt sampleSpec ∧
    generateDetailedPrompt sampleSpec = generateDetailedPrompt sampleSpec :=
  prompt_generators_deterministic sampleSpec sampleSpec rfl rfl rfl rfl rfl

/-- Claim C6: stopCapture leaves the committed specification untouched;
the startCapture session reset clears it, and no inbound message handler
ever clears it. -/
theorem stop_capture_preserves_project_spec (st : AppState) (m : WireMsg) :
    (stopCapture st).projectSpec = st.projectSpec ∧
    (startCaptureReset st).projectSpec = none ∧
    ((handleWsMessage st m).projectSpec = none → st.projectSpec = none) := by
  refine ⟨rfl, rfl, ?_⟩
  cases m with
  | transcript d => exact fun h => h
  | wordCount c => exact fun h => h
  | projectSpec sp => exact fun h => Option.noConfusion h

/-- Witness for claim C6 at the initial component state. -/
theorem stop_capture_preserves_project_spec_witness :
    (stopCapture initialAppState).projectSpec = initialAppState.projectSpec ∧
    initialAppState.projectSpec = none :=
  ⟨(stop_capture_preserves_project_spec initialAppState (WireMsg.wordCount 5)).1,
    (stop_capture_preserves_project_spec initialAppState (WireMsg.wordCount 5)).2.2 rfl⟩

/-- Claim C9: with an empty tech_stack the Tech Stack section of the super
prompt holds the fixed fallback sentence, and with a non-empty tech_stack
it holds the entries joined by a comma and a space. -/
theorem tech_stack_section_content (spec : ProjectSpec) :
    (spec.tech_stack = [] →
      ∃ a b, generateSuperPrompt spec =
        a ++ ("## Tech Stack\n" ++
          "Use modern best practices - suggest appropriate technologies" ++ "\n\n") ++ b) ∧
    (spec.tech_stack ≠ [] →
      ∃ a b, generateSuperPrompt spec =
        a ++ ("## Tech Stack\n" ++ String.intercalate ", " spec.tech_stack ++ "\n\n") ++ b) := by
  constructor
  · intro h
    refine ⟨"Build a web application with the following specifications:\n\n## Project Summary\n"
        ++ spec.project_summary ++ "\n\n",
      "## Requirements\n" ++ requirementsText spec ++ "\n" ++ uiPreferencesText spec
        ++ "\nPlease start by scaffolding the main components and implementing the core features."
        ++ rawTranscriptTailSuper spec, ?_⟩
    simp [generateSuperPrompt, superPromptCore, techStackText, h, String.append_assoc,
      -String.reduceAppend]
  · intro h
    refine ⟨"Build a web application with the following specifications:\n\n## Project Summary\n"
        ++ spec.project_summary ++ "\n\n",
      "## Requirements\n" ++ requirementsText spec ++ "\n" ++ uiPreferencesText spec
        ++ "\nPlease start by scaffolding the main components and implementing the core features."
        ++ rawTranscriptTailSuper spec, ?_⟩
    simp [generateSuperPrompt, superPromptCore, techStackText, List.length_pos, h,
      String.append_assoc, -String.reduceAppend]

/-- Witness for claim C9: both branches at concrete specifications. -/
theorem tech_stack_section_content_witness :
    (∃ a b, generateSuperPrompt cexSpec =
      a ++ ("## Tech Stack\n" ++
        "Use modern best practices - suggest appropriate technologies" ++ "\n\n") ++ b) ∧
    (∃ a b, generateSuperPrompt sampleSpec =
      a ++ ("## Tech Stack\n" ++ String.intercalate ", " sampleSpec.tech_stack ++ "\n\n") ++ b) :=
  ⟨(tech_stack_section_content cexSpec).1 rfl,
    (tech_stack_section_content sampleSpec).2 (by decide)⟩

/-- Claim C5: when the transcript snapshot is set and non-empty, the
detailed prompt contains the Raw Transcript Reference section twice: once
inside the embedded super prompt and once appended again at the end. -/
theorem detailed_prompt_transcript_twice (spec : ProjectSpec) (t : String)
    (h1 : spec.raw_transcript_snapshot = some t) (h2 : t ≠ "") :
    ∃ a b, generateSuperPrompt spec = a ++ rawTranscriptSection t ∧
      generateDetailedPrompt spec =
        generateSuperPrompt spec ++ (b ++ rawTranscriptSection t) := by
  refine ⟨superPromptCore spec ++ "\n\n", historicalContextText spec ++ "\n", ?_, ?_⟩
  · simp [generateSuperPrompt, rawTranscriptTailSuper, h1, h2, String.append_assoc]
  · simp [generateDetailedPrompt, rawTranscriptTailDetailed, h1, h2, String.append_assoc]

/-- Witness for claim C5 at a concrete specification. -/
theorem detailed_prompt_transcript_twice_witness :
    ∃ a b, generateSuperPrompt sampleSpec = a ++ rawTranscriptSection "hello world" ∧
      generateDetailedPrompt sampleSpec =
        generateSuperPrompt sampleSpec ++ (b ++ rawTranscriptSection "hello world") :=
  detailed_prompt_transcript_twice sampleSpec "hello world" rfl (by decide)

/-- Claim C1 (amended): the Requirements section of the super prompt lists
exactly one dash entry per active requirement, in requirement-list order;
a superseded requirement contributes no entry of its own, so its
description appears among the entries only when some active requirement
carries the same description. -/
theorem requirements_section_lists_active (spec : ProjectSpec) (r : Requirement)
    (_hmem : r ∈ spec.requirements) (_hsup : r.status = ReqStatus.superseded)
    (happ : ("- " ++ r.description) ∈ requirementsSectionEntries spec) :
    (∃ a b, generateSuperPrompt spec =
      a ++ ("## Requirements\n" ++
        String.intercalate "\n" (requirementsSectionEntries spec) ++ "\n") ++ b) ∧
    ∃ r2 ∈ spec.requirements, r2.status = ReqStatus.active ∧
      r2.description = r.description := by
  constructor
  · refine ⟨"Build a web application with the following specifications:\n\n## Project Summary\n"
        ++ spec.project_summary ++ "\n\n" ++ "## Tech Stack\n" ++ techStackText spec ++ "\n\n",
      uiPreferencesText spec
        ++ "\nPlease start by scaffolding the main components and implementing the core features."
        ++ rawTranscriptTailSuper spec, ?_⟩
    simp [generateSuperPrompt, superPromptCore, requirementsText, String.append_assoc,
      -String.reduceAppend]
  · obtain ⟨r2, hr2, heq⟩ := List.mem_map.mp happ
    have hr2' := List.mem_filter.mp hr2
    refine ⟨r2, hr2'.1, by simpa using hr2'.2, ?_⟩
    have hdata : ("- " : String).data ++ r2.description.data =
        ("- " : String).data ++ r.description.data := by
      have := congrArg String.data heq
      simpa [String.data_append] using this
    exact String.ext (List.append_cancel_left hdata)

/-- Counterexample to claim C1 as stated: in cexSpec requirement one is
superseded, yet its description appears in the Requirements section of
the super prompt, because the later active requirement three restated
it. -/
theorem requirements_section_superseded_appears :
    (Requirement.mk 1 "Dark mode" ReqStatus.superseded none) ∈ cexSpec.requirements ∧
    ("- " ++ "Dark mode") ∈ requirementsSectionEntries cexSpec ∧
    String.intercalate "\n" (requirementsSectionEntries cexSpec) =
      "- Light mode\n- Dark mode" := by
  decide

/-- Witness for the amended claim C1 at the same concrete
specification. -/
theorem requirements_section_lists_active_witness :
    (∃ a b, generateSuperPrompt cexSpec =
      a ++ ("## Requirements\n" ++
        String.intercalate "\n" (requirementsSectionEntries cexSpec) ++ "\n") ++ b) ∧
    ∃ r2 ∈ cexSpec.requirements, r2.status = ReqStatus.active ∧
      r2.description = (Requirement.mk 1 "Dark mode" ReqStatus.superseded none).description :=
  requirements_section_lists_active cexSpec
    (Requirement.mk 1 "Dark mode" ReqStatus.superseded none)
    (by decide) rfl (by decide)

/-- The full transcript accumulated by the message handlers: every
transcript chunk lands at the end of the existing text, preceded by a
single space. -/
theorem runMsgs_fullTranscript (ms : List WireMsg) (st : AppState) :
    (runMsgs st ms).fullTranscript = st.fullTranscript ++ joinChunks (chunksOf ms) := by
  induction ms generalizing st with
  | nil => simp [runMsgs, chunksOf, joinChunks]
  | cons m ms ih =>
    have hstep : runMsgs st (m :: ms) = runMsgs (handleWsMessage st m) ms := rfl
    rw [hstep, ih]
    cases m with
    | transcript d =>
        simp [handleWsMessage, chunksOf, joinChunks, String.append_assoc]
    | wordCount c => simp [handleWsMessage, chunksOf]
    | projectSpec sp => simp [handleWsMessage, chunksOf]

/-- Claim C7 (amended): from session start the full transcript is the
concatenation of the received chunks, each chunk preceded by one space,
and handling any message only ever extends the previously accumulated
text. -/
theorem full_transcript_append_only (st : AppState) (ms : List WireMsg) (m : WireMsg) :
    (runMsgs (startCaptureReset st) ms).fullTranscript = joinChunks (chunksOf ms) ∧
    ∃ t2, (handleWsMessage st m).fullTranscript = st.fullTranscript ++ t2 := by
  constructor
  · rw [runMsgs_fullTranscript]
    simp [startCaptureReset]
  · cases m with
    | transcript d =>
        exact ⟨" " ++ d, by simp [handleWsMessage, String.append_assoc]⟩
    | wordCount c => exact ⟨"", by simp [handleWsMessage]⟩
    | projectSpec sp => exact ⟨"", by simp [handleWsMessage]⟩

/-- Counterexample to claim C7 as stated: after a single chunk the full
transcript carries a leading space, so it differs from the space-separated
concatenation of the chunks received since session start. -/
theorem full_transcript_leading_space_counterexample :
    (runMsgs (startCaptureReset initialAppState)
        [WireMsg.transcript "hello"]).fullTranscript ≠
      String.intercalate " " (chunksOf [WireMsg.transcript "hello"]) := by
  decide

/-- Folding a function that fixes the state leaves the state unchanged. -/
theorem foldl_fixed {α β : Type} (f : β → α → β) (st : β) :
    ∀ l : List α, (∀ c ∈ l, f st c = st) → l.foldl f st = st
  | [], _ => rfl
  | c :: cs, h => by
      rw [List.foldl_cons, h c (List.mem_cons_self c cs)]
      exact foldl_fixed f st cs (fun x hx => h x (List.mem_cons_of_mem c hx))

/-- A candidate requirement with no supersession token whose description
matches an active requirement is a no-op for the engine. -/
theorem reconcileReq_noop (reqs : List Requirement) (n : Nat)
    (c : CandidateRequirement) (hhint : c.supersedes_hint = none)
    (hmatch : (activeReqs reqs).any
      (fun r => normalize r.description == normalize c.description) = true) :
    reconcileReq (reqs, n) c = (reqs, n) := by
  simp [reconcileReq, hhint, hmatch]

/-- Claim C2: reconciling a committed specification with a candidate
identical in content to it keeps the requirement list — ids, statuses and
supersession links — exactly as it was, creates no duplicate, marks
nothing superseded, and allocates no id. -/
theorem reconcile_identical_candidate_identity (s : ProjectSpec) (n : Nat) :
    (reconcile s n (candidateOf s)).1.requirements = s.requirements ∧
    (reconcile s n (candidateOf s)).2 = n := by
  have hfold : (candidateOf s).requirements.foldl reconcileReq (s.requirements, n) =
      (s.requirements, n) := by
    apply foldl_fixed
    intro c hc
    simp only [candidateOf, List.mem_map] at hc
    obtain ⟨r, hr, rfl⟩ := hc
    apply reconcileReq_noop
    · rfl
    · exact List.any_eq_true.mpr ⟨r, hr, by simp⟩
  constructor <;> simp [reconcile, hfold]

/-- Marking a requirement superseded does not change its id. -/
theorem mark_preserves_id (old r : Requirement) :
    (if r.id == old.id then { r with status := ReqStatus.superseded } else r).id
      = r.id := by
  cases h : (r.id == old.id) <;> simp [h]

/-- Identifier bookkeeping of one engine step: the ids already present are
kept in place, and either nothing is appended or exactly the next counter
value is appended with the counter bumped. -/
theorem reconcileReq_ids (reqs : List Requirement) (n : Nat) (c : CandidateRequirement) :
    ((reconcileReq (reqs, n) c).1.map (fun r => r.id) = reqs.map (fun r => r.id) ∧
      (reconcileReq (reqs, n) c).2 = n) ∨
    ((reconcileReq (reqs, n) c).1.map (fun r => r.id) = reqs.map (fun r => r.id) ++ [n] ∧
      (reconcileReq (reqs, n) c).2 = n + 1) := by
  cases hres : c.supersedes_hint.bind (fun h => resolveHint reqs h) with
  | some old =>
      refine Or.inr ⟨?_, ?_⟩
      · simp only [reconcileReq, hres, List.map_append, List.map_map, List.map_cons,
          List.map_nil]
        congr 1
        exact List.map_congr_left (fun a _ => mark_preserves_id old a)
      · simp [reconcileReq, hres]
  | none =>
      by_cases hm : (activeReqs reqs).any
          (fun r => normalize r.description == normalize c.description) = true
      · exact Or.inl ⟨by simp [reconcileReq, hres, hm], by simp [reconcileReq, hres, hm]⟩
      · have hm' : (activeReqs reqs).any
            (fun r => normalize r.description == normalize c.description) = false :=
          Bool.eq_false_iff.mpr hm
        exact Or.inr ⟨by simp [reconcileReq, hres, hm'], by simp [reconcileReq, hres, hm']⟩

/-- One engine step preserves the identifier invariants: existing ids stay
in place, any appended id is the current counter value, strict ordering
persists, and all ids stay below the new counter. -/
theorem reconcileReq_inv (reqs : List Requirement) (n : Nat) (c : CandidateRequirement)
    (hb : IdsBelow reqs n)
    (hc : List.Chain' (· < ·) (reqs.map (fun r => r.id))) :
    ∃ t, (reconcileReq (reqs, n) c).1.map (fun r => r.id) =
        reqs.map (fun r => r.id) ++ t ∧
      (∀ i ∈ t, n ≤ i) ∧
      IdsBelow (reconcileReq (reqs, n) c).1 (reconcileReq (reqs, n) c).2 ∧
      List.Chain' (· < ·) ((reconcileReq (reqs, n) c).1.map (fun r => r.id)) ∧
      n ≤ (reconcileReq (reqs, n) c).2 := by
  rcases reconcileReq_ids reqs n c with ⟨hmap, hcnt⟩ | ⟨hmap, hcnt⟩
  · refine ⟨[], by simp [hmap], by simp, ?_, ?_, ?_⟩
    · simp only [IdsBelow, hmap, hcnt]
      exact hb
    · rw [hmap]
      exact hc
    · rw [hcnt]
  · refine ⟨[n], hmap, ?_, ?_, ?_, ?_⟩
    · intro i hi
      have : i = n := by simpa using hi
      simp [this]
    · simp only [IdsBelow, hmap, hcnt]
      intro i hi
      rcases List.mem_append.mp hi with h | h
      · exact Nat.lt_succ_of_lt (hb i h)
      · have : i = n := by simpa using h
        simp [this]
    · rw [hmap, List.chain'_append]
      refine ⟨hc, List.chain'_singleton n, ?_⟩
      intro x hx y hy
      have hy' : n = y := by simpa using hy
      rw [← hy']
      exact hb x (List.mem_of_getLast?_eq_some (Option.mem_def.mp hx))
    · rw [hcnt]
      exact Nat.le_succ n

/-- Folding candidate requirements preserves the identifier invariants and
appends only fresh ids, each at least the starting counter value. -/
theorem reconcileFold_inv (cs : List CandidateRequirement) :
    ∀ (reqs : List Requirement) (n : Nat), IdsBelow reqs n →
      List.Chain' (· < ·) (reqs.map (fun r => r.id)) →
      ∃ t, (cs.foldl reconcileReq (reqs, n)).1.map (fun r => r.id) =
          reqs.map (fun r => r.id) ++ t ∧
        (∀ i ∈ t, n ≤ i) ∧
        IdsBelow (cs.foldl reconcileReq (reqs, n)).1 (cs.foldl reconcileReq (reqs, n)).2 ∧
        List.Chain' (· < ·) ((cs.foldl reconcileReq (reqs, n)).1.map (fun r => r.id)) ∧
        n ≤ (cs.foldl reconcileReq (reqs, n)).2 := by
  induction cs with
  | nil =>
      intro reqs n hb hc
      exact ⟨[], by simp, by simp, hb, hc, Nat.le_refl n⟩
  | cons c cs ih =>
      intro reqs n hb hc
      obtain ⟨t0, hmap0, hge0, hb1, hc1, hle1⟩ := reconcileReq_inv reqs n c hb hc
      obtain ⟨t1, hmap1, hge1, hb2, hc2, hle2⟩ :=
        ih (reconcileReq (reqs, n) c).1 (reconcileReq (reqs, n) c).2 hb1 hc1
      have hstep : (c :: cs).foldl reconcileReq (reqs, n) =
          cs.foldl reconcileReq (reconcileReq (reqs, n) c) := rfl
      refine ⟨t0 ++ t1, ?_, ?_, ?_, ?_, ?_⟩
      · rw [hstep, hmap1, hmap0, List.append_assoc]
      · intro i hi
        rcases List.mem_append.mp hi with h | h
        · exact hge0 i h
        · exact Nat.le_trans hle1 (hge1 i h)
      · rw [hstep]
        exact hb2
      · rw [hstep]
        exact hc2
      · rw [hstep]
        exact Nat.le_trans hle1 hle2

/-- One full reconciliation preserves the identifier invariants and
appends only fresh ids. -/
theorem reconcile_inv (s : ProjectSpec) (n : Nat) (c : CandidateSpec)
    (hb : IdsBelow s.requirements n)
    (hc : List.Chain' (· < ·) (s.requirements.map (fun r => r.id))) :
    ∃ t, (reconcile s n c).1.requirements.map (fun r => r.id) =
        s.requirements.map (fun r => r.id) ++ t ∧
      (∀ i ∈ t, n ≤ i) ∧
      IdsBelow (reconcile s n c).1.requirements (reconcile s n c).2 ∧
      List.Chain' (· < ·) ((reconcile s n c).1.requirements.map (fun r => r.id)) ∧
      n ≤ (reconcile s n c).2 := by
  have h1 : (reconcile s n c).1.requirements =
      (c.requirements.foldl reconcileReq (s.requirements, n)).1 := rfl
  have h2 : (reconcile s n c).2 =
      (c.requirements.foldl reconcileReq (s.requirements, n)).2 := rfl
  rw [h1, h2]
  exact reconcileFold_inv c.requirements s.requirements n hb hc

/-- Every session state reached by a sequence of reconciliations keeps its
ids strictly increasing in list order and below the next counter value. -/
theorem runReconciliations_inv (cs : List CandidateSpec) :
    IdsBelow (runReconciliations cs).1.requirements (runReconciliations cs).2 ∧
    List.Chain' (· < ·)
      ((runReconciliations cs).1.requirements.map (fun r => r.id)) := by
  suffices h : ∀ (l : List CandidateSpec) (st : ProjectSpec × Nat),
      IdsBelow st.1.requirements st.2 →
      List.Chain' (· < ·) (st.1.requirements.map (fun r => r.id)) →
      IdsBelow (l.foldl reconcileStep st).1.requirements (l.foldl reconcileStep st).2 ∧
      List.Chain' (· < ·)
        ((l.foldl reconcileStep st).1.requirements.map (fun r => r.id)) by
    refine h cs (initialSpec, 1) ?_ ?_
    · intro i hi
      simp [initialSpec] at hi
    · simp [initialSpec]
  intro l
  induction l with
  | nil =>
      intro st hb hc
      exact ⟨hb, hc⟩
  | cons c cs ih =>
      intro st hb hc
      obtain ⟨t, _, _, hb1, hc1, _⟩ := reconcile_inv st.1 st.2 c hb hc
      exact ih (reconcileStep st c) hb1 hc1

/-- Claim C3: over any sequence of reconciliations in one session, one
more reconciliation only appends ids at least as large as the current
counter (so no id is ever reused), the id sequence in assignment order
stays strictly increasing, and every id stays below the next counter
value. -/
theorem reconciliation_ids_monotonic (cs : List CandidateSpec) (c : CandidateSpec) :
    (∃ t, (reconcileStep (runReconciliations cs) c).1.requirements.map (fun r => r.id) =
        (runReconciliations cs).1.requirements.map (fun r => r.id) ++ t ∧
      ∀ i ∈ t, (runReconciliations cs).2 ≤ i) ∧
    List.Chain' (· < ·)
      ((reconcileStep (runReconciliations cs) c).1.requirements.map (fun r => r.id)) ∧
    IdsBelow (reconcileStep (runReconciliations cs) c).1.requirements
      (reconcileStep (runReconciliations cs) c).2 := by
  obtain ⟨hb, hc⟩ := runReconciliations_inv cs
  obtain ⟨t, hmap, hge, hb1, hc1, _⟩ :=
    reconcile_inv (runReconciliations cs).1 (runReconciliations cs).2 c hb hc
  exact ⟨⟨t, hmap, hge⟩, hc1, hb1⟩

end DevDraft
